import Mathlib

set_option maxRecDepth 8000

/-! Verification of the VISTA campus-tour assistant (travel_planner.py,
route_planner.py, image_recognition_workflow.py).  The Python code is
shallowly embedded: JSON values are an inductive type, strings are lists
of characters, the external HTTP / mapping / image libraries are
oracle parameters, and every fallible operation returns `Except`. -/

/-- JSON values as handed around by the Python code (via `json.loads` and
`response.json()`).  Numbers are modelled as integers: no payload relevant
to the verified claims carries a fractional number.  Object fields keep
source order; `json.loads` never produces duplicate keys. -/
inductive Json where
  | null : Json
  | bool : Bool → Json
  | num : Int → Json
  | str : List Char → Json
  | arr : List Json → Json
  | obj : List (List Char × Json) → Json

/-- First binding of a key in an association list (Python dict lookup). -/
def lookupKey (k : List Char) : List (List Char × Json) → Option Json
  | [] => none
  | (k2, v) :: rest => if k2 = k then some v else lookupKey k rest

/-- `j[k]` on a dict, `none` on any other value or a missing key.
Mirrors Python `k in j` / `j.get(k)` on the values reachable here:
`in` on a list or on `None` is key-absence, and the code never reaches
a `get` on a non-dict without first checking membership. -/
def Json.lookup (j : Json) (k : List Char) : Option Json :=
  match j with
  | .obj fs => lookupKey k fs
  | _ => none

/-- Python truth-value test (`if not content:` …) on JSON values. -/
def Json.falsy : Json → Bool
  | .null => true
  | .bool b => !b
  | .num n => n == 0
  | .str s => s.isEmpty
  | .arr l => l.isEmpty
  | .obj l => l.isEmpty

/-! ### A model of `json.loads`

A fuel-indexed recursive-descent parser for the JSON subset exchanged by
the code (strings with the common escapes, integers, arrays, objects,
literals).  `Json.parse` succeeds only when the whole input is consumed
up to trailing whitespace, exactly like `json.loads`. -/

/-- Drop leading JSON whitespace. -/
def skipWs : List Char → List Char
  | [] => []
  | c :: cs => if c.toNat = 32 ∨ c.toNat = 10 ∨ c.toNat = 9 ∨ c.toNat = 13 then skipWs cs else c :: cs

/-- The character denoted by a backslash escape in a JSON string. -/
def escChar (c : Char) : Option Char :=
  if c = 'n' then some (Char.ofNat 10)
  else if c = 't' then some (Char.ofNat 9)
  else if c = 'r' then some (Char.ofNat 13)
  else if c = 'b' then some (Char.ofNat 8)
  else if c = 'f' then some (Char.ofNat 12)
  else if c = '"' ∨ c = '\\' ∨ c = '/' then some c
  else none

/-- Parse the body of a JSON string after the opening quote; returns the
decoded characters and the input after the closing quote. -/
def parseStringBody : List Char → Option (List Char × List Char)
  | [] => none
  | c :: cs =>
    if c = '"' then some ([], cs)
    else if c = '\\' then
      match cs with
      | [] => none
      | e :: cs2 =>
        match escChar e with
        | some d =>
          match parseStringBody cs2 with
          | some (s, r) => some (d :: s, r)
          | none => none
        | none => none
    else
      match parseStringBody cs with
      | some (s, r) => some (c :: s, r)
      | none => none

/-- Numeric value of a decimal digit. -/
def digitVal (c : Char) : Option Nat :=
  let n := c.toNat
  if 48 ≤ n ∧ n ≤ 57 then some (n - 48) else none

/-- Split a maximal run of decimal digits off the front of the input. -/
def takeDigits : List Char → (List Nat × List Char)
  | [] => ([], [])
  | c :: cs =>
    match digitVal c with
    | some d =>
      match takeDigits cs with
      | (ds, r) => (d :: ds, r)
    | none => ([], c :: cs)

/-- Decimal digits to a natural number. -/
def natOfDigits (ds : List Nat) : Nat := ds.foldl (fun a d => a * 10 + d) 0

/-- Consume an expected literal tail; `none` when the input differs. -/
def dropLit : List Char → List Char → Option (List Char)
  | [], rest => some rest
  | l :: ls, c :: cs => if c = l then dropLit ls cs else none
  | _ :: _, [] => none

mutual

/-- Parse one JSON value; returns it and the remaining input. -/
def parseValue : Nat → List Char → Option (Json × List Char)
  | 0, _ => none
  | fuel + 1, cs =>
    match skipWs cs with
    | [] => none
    | c :: rest =>
      if c = '"' then
        match parseStringBody rest with
        | some (s, r) => some (.str s, r)
        | none => none
      else if c = '[' then
        match skipWs rest with
        | ']' :: r => some (.arr [], r)
        | other =>
          match parseItems fuel other with
          | some (vs, r) => some (.arr vs, r)
          | none => none
      else if c = '\x7b' then
        match skipWs rest with
        | '\x7d' :: r => some (.obj [], r)
        | other =>
          match parseMembers fuel other with
          | some (ms, r) => some (.obj ms, r)
          | none => none
      else if c = 't' then
        match dropLit (("rue").toList) rest with
        | some r => some (.bool true, r)
        | none => none
      else if c = 'f' then
        match dropLit (("alse").toList) rest with
        | some r => some (.bool false, r)
        | none => none
      else if c = 'n' then
        match dropLit (("ull").toList) rest with
        | some r => some (.null, r)
        | none => none
      else if c = '-' then
        match takeDigits rest with
        | ([], _) => none
        | (ds, r) => some (.num (-(natOfDigits ds : Int)), r)
      else
        match digitVal c with
        | some _ =>
          match takeDigits (c :: rest) with
          | ([], _) => none
          | (ds, r) => some (.num (natOfDigits ds), r)
        | none => none

/-- Parse the items of a non-empty JSON array up to the closing bracket. -/
def parseItems : Nat → List Char → Option (List Json × List Char)
  | 0, _ => none
  | fuel + 1, cs =>
    match parseValue fuel cs with
    | none => none
    | some (v, after1) =>
      match skipWs after1 with
      | ',' :: after2 =>
        match parseItems fuel after2 with
        | none => none
        | some (vs, after3) => some (v :: vs, after3)
      | ']' :: after2 => some ([v], after2)
      | _ => none

/-- Parse the members of a non-empty JSON object up to the closing brace. -/
def parseMembers : Nat → List Char → Option (List (List Char × Json) × List Char)
  | 0, _ => none
  | fuel + 1, cs =>
    match skipWs cs with
    | '"' :: afterQuote =>
      match parseStringBody afterQuote with
      | none => none
      | some (k, afterKey) =>
        match skipWs afterKey with
        | ':' :: afterColon =>
          match parseValue fuel afterColon with
          | none => none
          | some (v, afterVal) =>
            match skipWs afterVal with
            | ',' :: afterComma =>
              match parseMembers fuel afterComma with
              | none => none
              | some (ms, afterAll) => some ((k, v) :: ms, afterAll)
            | '\x7d' :: afterBrace => some ([(k, v)], afterBrace)
            | _ => none
        | _ => none
    | _ => none

end

/-- Model of `json.loads`: parse a whole string as one JSON document. -/
def Json.parse (s : List Char) : Option Json :=
  match parseValue (2 * s.length + 4) s with
  | some (v, r) => if skipWs r = [] then some v else none
  | none => none

/-! ### travel_planner.py -/

def outputK : List Char := ("output").toList
def textK : List Char := ("text").toList
def responseK : List Char := ("response").toList
def choicesK : List Char := ("choices").toList
def nameK : List Char := ("name").toList
def descriptionK : List Char := ("description").toList
def durationK : List Char := ("recommended_duration").toList
def bestTimeK : List Char := ("best_time_to_visit").toList
def highlightsK : List Char := ("highlights").toList

/-- `TravelDestination` dataclass.  Python dataclasses do not check field
types at runtime, so each field holds whatever JSON value was found. -/
structure TravelDestination where
  name : Json
  description : Json
  recommended_duration : Json
  best_time_to_visit : Json
  highlights : Json

/-- Failure modes of `extract_destinations` (in the source all are the one
`Exception` re-raised at line 181; the distinct constructors record the
distinct internal messages the spec maps onto its error taxonomy). -/
inductive ExtractErr where
  | noContent : ExtractErr
  | shapeError : ExtractErr
  | noJson : ExtractErr
  | missingKey : List Char → ExtractErr
  | notAList : ExtractErr
deriving DecidableEq

/-- Lines 139-148 of travel_planner.py: pick the wrapper by key presence
(`if "output" in … elif "response" in … elif "choices" in …`) and read its
content.  `ok none` models Python `content is None` (no branch taken, or a
falsy `choices`); `shapeError` models the `AttributeError`/`TypeError` of
navigating a wrapper of the wrong type, caught by the line-178 handler. -/
def contentOf (resp : Json) : Except ExtractErr (Option Json) :=
  match resp.lookup outputK with
  | some out =>
    match out with
    | .obj fs => .ok (some ((lookupKey textK fs).getD (.str [])))
    | _ => .error .shapeError
  | none =>
    match resp.lookup responseK with
    | some r => .ok (some r)
    | none =>
      match resp.lookup choicesK with
      | some chs =>
        if chs.falsy then .ok none
        else
          match chs with
          | .arr (c :: _) =>
            match c with
            | .obj fs => .ok (some ((lookupKey textK fs).getD (.str [])))
            | _ => .error .shapeError
          | _ => .error .shapeError
      | none => .ok none

/-- Lines 156-160: `re.search(r'\[.*\]', content, re.DOTALL)` — the
leftmost-longest match runs from the first `[` to the last `]` of the
string (and exists iff some `]` follows the first `[`). -/
def bracketSpan (s : List Char) : Option (List Char) :=
  match ((s.dropWhile (fun c => !(c = '['))).reverse.dropWhile (fun c => !(c = ']'))).reverse with
  | [] => none
  | c :: cs => some (c :: cs)

/-- Lines 167-173: build one `TravelDestination`, evaluating the five
subscripts in source order; a missing key raises `KeyError(key)` (the
`SchemaViolationError` of the spec), a non-dict element raises the
`TypeError` modelled by `shapeError`. -/
def destOfJson (j : Json) : Except ExtractErr TravelDestination :=
  match j with
  | .obj fs =>
    match lookupKey nameK fs with
    | none => .error (.missingKey nameK)
    | some nv =>
      match lookupKey descriptionK fs with
      | none => .error (.missingKey descriptionK)
      | some dv =>
        match lookupKey durationK fs with
        | none => .error (.missingKey durationK)
        | some rv =>
          match lookupKey bestTimeK fs with
          | none => .error (.missingKey bestTimeK)
          | some bv =>
            match lookupKey highlightsK fs with
            | none => .error (.missingKey highlightsK)
            | some hv => .ok ⟨nv, dv, rv, bv, hv⟩
  | _ => .error .shapeError

/-- Lines 165-174: the conversion loop — stops at the first bad element. -/
def destsOfList : List Json → Except ExtractErr (List TravelDestination)
  | [] => .ok []
  | j :: rest =>
    match destOfJson j with
    | .error e => .error e
    | .ok d =>
      match destsOfList rest with
      | .error e => .error e
      | .ok ds => .ok (d :: ds)

/-- `for data in destinations_data` over the parsed document; iterating a
non-array raises (modelled by `notAList`). -/
def destsOfJson : Json → Except ExtractErr (List TravelDestination)
  | .arr xs => destsOfList xs
  | _ => .error .notAList

/-- `extract_destinations` (travel_planner.py lines 124-181). -/
def extract_destinations (resp : Json) : Except ExtractErr (List TravelDestination) :=
  match contentOf resp with
  | .error e => .error e
  | .ok none => .error .noContent
  | .ok (some content) =>
    if content.falsy then .error .noContent
    else
      match content with
      | .str s =>
        match Json.parse s with
        | some v => destsOfJson v
        | none =>
          match bracketSpan s with
          | some sub =>
            match Json.parse sub with
            | some v => destsOfJson v
            | none => .error .noJson
          | none => .error .noJson
      | _ => .error .shapeError

/-! ### route_planner.py -/

/-- One step of a leg: only `html_instructions` is read by the parser. -/
structure RouteStep where
  html_instructions : List Char

/-- One leg of a mapping-service route, with the fields the parser reads:
`distance.value` / `duration.value` (integral metric values),
`start_address`, `end_address` and `steps`. -/
structure RouteLeg where
  distance_value : Nat
  duration_value : Nat
  start_address : List Char
  end_address : List Char
  steps : List RouteStep

/-- A raw route as returned by the directions call. -/
structure RouteData where
  legs : List RouteLeg

/-- `RouteInfo` dataclass. -/
structure RouteInfo where
  start_location : List Char
  end_location : List Char
  distance : List Char
  duration : List Char
  steps : List (List Char)

/-- Failure modes of the route-planner functions. -/
inductive RouteErr where
  | insufficientLocations : RouteErr
  | noRoute : RouteErr
  | emptyLegs : RouteErr
deriving DecidableEq

/-- Decimal digits of a natural number. -/
def natToChars (n : Nat) : List Char := Nat.toDigits 10 n

/-- Hundredths of a kilometre for a metre total: the exact rational
`n / 10` rounded to an integer, half to even.  This models CPython's
`f"{n/1000:.2f}"` on the claims' inputs (double rounding of the binary
float can differ from exact rounding only on sub-centimetre halves). -/
def roundHundredths (n : Nat) : Nat :=
  let q := n / 10
  let r := n % 10
  if r < 5 then q else if 5 < r then q + 1 else if q % 2 = 0 then q else q + 1

/-- Two-decimal kilometre rendering of a metre total (`f"{n/1000:.2f}"`). -/
def fmtKm (n : Nat) : List Char :=
  let h := roundHundredths n
  natToChars (h / 100) ++ ('.' :: (if h % 100 < 10 then '0' :: natToChars (h % 100) else natToChars (h % 100)))

/-- Line 130: the formatted total distance. -/
def fmtDistance (n : Nat) : List Char :=
  if 1000 ≤ n then fmtKm n ++ (" km").toList else natToChars n ++ (" m").toList

/-- Line 131: the formatted total duration. -/
def fmtDuration (n : Nat) : List Char :=
  natToChars (n / 60) ++ (" min ").toList ++ natToChars (n % 60) ++ (" sec").toList

/-- Fuel-indexed body of `replaceAll`: one unit of fuel per consumed
character (a non-empty pattern consumes at least one, so `s.length`
fuel always suffices; with no fuel the rest passes through unchanged). -/
def replAux : Nat → List Char → List Char → List Char → List Char
  | 0, s, _, _ => s
  | _ + 1, [], _, _ => []
  | fuel + 1, c :: cs, pat, rep =>
    if pat ≠ [] ∧ pat.isPrefixOf (c :: cs) then
      rep ++ replAux fuel ((c :: cs).drop pat.length) pat rep
    else
      c :: replAux fuel cs pat rep

/-- Python `str.replace`: replace every non-overlapping occurrence of a
non-empty pattern, scanning left to right. -/
def replaceAll (s pat rep : List Char) : List Char := replAux s.length s pat rep

/-- Lines 138-141: strip the four known markup tokens from one step's
`html_instructions`, in source order. -/
def cleanInstruction (s : List Char) : List Char :=
  let s1 := replaceAll s (("<b>").toList) []
  let s2 := replaceAll s1 (("</b>").toList) []
  let s3 := replaceAll s2 (("<div style=\"font-size:0.9em\">").toList) ((" - ").toList)
  replaceAll s3 (("</div>").toList) []

/-- `parse_route_info` (route_planner.py lines 111-154).  An empty `legs`
list makes line 145 (`legs[0]`) raise; `emptyLegs` models that. -/
def parse_route_info (route_data : RouteData) : Except RouteErr RouteInfo :=
  match route_data.legs with
  | [] => .error .emptyLegs
  | l0 :: rest =>
    let legs := l0 :: rest
    let total_distance := (legs.map (fun l => l.distance_value)).sum
    let total_duration := (legs.map (fun l => l.duration_value)).sum
    let all_steps := legs.flatMap (fun leg => leg.steps.map (fun st => cleanInstruction st.html_instructions))
    .ok ⟨l0.start_address, (legs.getLast (by simp [legs])).end_address,
         fmtDistance total_distance, fmtDuration total_duration, all_steps⟩

/-- The request `calculate_route` sends to the directions service
(origin, destination, waypoints, optimize flag, fixed mode and units). -/
structure DirectionsRequest where
  origin : List Char
  destination : List Char
  waypoints : List (List Char)
  optimize_waypoints : Bool
  mode : List Char
  units : List Char

/-- `calculate_route` (route_planner.py lines 66-109).  The mapping client
is the oracle `svc`; the second component of the result is the list of
directions requests actually issued (empty = no network call). -/
def calculate_route (svc : DirectionsRequest → List RouteData) (locations : List (List Char))
    (optimize_waypoints : Bool) : Except RouteErr RouteData × List DirectionsRequest :=
  match locations with
  | [] => (.error .insufficientLocations, [])
  | [_] => (.error .insufficientLocations, [])
  | l0 :: l1 :: rest =>
    let locs := l0 :: l1 :: rest
    let origin := l0
    let destination := locs.getLast (by simp [locs])
    let waypoints := if 2 < locs.length then (locs.drop 1).dropLast else []
    let req : DirectionsRequest := ⟨origin, destination, waypoints, optimize_waypoints,
      ("walking").toList, ("metric").toList⟩
    ((match svc req with
      | [] => .error .noRoute
      | r :: _ => .ok r), [req])

/-- `get_route_url` (lines 156-174): crude percent-style encoding. -/
def get_route_url (locations : List (List Char)) : List Char :=
  let encode := fun (l : List Char) =>
    replaceAll (replaceAll l ([' ']) (['+'])) ([',']) (("%2C").toList)
  ("https://www.google.com/maps/dir/").toList ++ (List.intercalate (['/']) (locations.map encode))

/-- `plan_route` result dictionary (lines 198-202). -/
structure RouteResult where
  route_info : RouteInfo
  maps_url : List Char
  raw_data : RouteData

/-- `plan_route` (lines 176-206), with the same request log as
`calculate_route`. -/
def plan_route (svc : DirectionsRequest → List RouteData) (locations : List (List Char)) :
    Except RouteErr RouteResult × List DirectionsRequest :=
  match calculate_route svc locations true with
  | (.error e, lg) => (.error e, lg)
  | (.ok rd, lg) =>
    match parse_route_info rd with
    | .error e => (.error e, lg)
    | .ok ri => (.ok ⟨ri, get_route_url locations, rd⟩, lg)

/-! ### image_recognition_workflow.py -/

def messageK : List Char := ("message").toList
def contentK : List Char := ("content").toList

/-- `LocationData` dataclass.  Coordinates are floats in the source; the
claims never inspect their numeric semantics, so they are embedded as
integers rendered into the prompt text. -/
structure LocationData where
  latitude : Int
  longitude : Int
  address : Option (List Char)
  landmark : Option (List Char)

/-- The Python exceptions that can escape the `try` body of
`extract_description` (lines 184-209). -/
inductive PyExc where
  | noChoices : PyExc
  | noContent : PyExc
  | attrError : PyExc
  | typeError : PyExc
  | keyError : PyExc
  | indexError : PyExc
deriving DecidableEq

/-- `j.get(k, dflt)`: `AttributeError` when `j` is not a dict. -/
def pyGetAttr (j : Json) (k : List Char) (dflt : Json) : Except PyExc Json :=
  match j with
  | .obj fs => .ok ((lookupKey k fs).getD dflt)
  | _ => .error .attrError

/-- `j[0]` on an arbitrary JSON value: first element of a list, one-char
string of a string, `KeyError` on a dict (whose keys are strings, never
`0`), `IndexError` on an empty sequence, `TypeError` otherwise. -/
def pySubZero : Json → Except PyExc Json
  | .arr (x :: _) => .ok x
  | .arr [] => .error .indexError
  | .str (c :: _) => .ok (.str [c])
  | .str [] => .error .indexError
  | .obj _ => .error .keyError
  | _ => .error .typeError

/-- Python whitespace for `str.strip` (space, tab, LF, CR, VT, FF). -/
def isSpaceC (c : Char) : Bool :=
  [32, 9, 10, 13, 11, 12].contains c.toNat

/-- `str.strip()`. -/
def stripChars (s : List Char) : List Char :=
  ((s.dropWhile isSpaceC).reverse.dropWhile isSpaceC).reverse

/-- `" ".join`. -/
def joinSpace (xs : List (List Char)) : List Char := List.intercalate ([' ']) xs

/-- Lines 199-207: collect the text of the recognized fragments of a
content list; a `text` member that is not a string poisons the final
`" ".join` with a `TypeError`. -/
def collectTexts : List Json → Except PyExc (List (List Char))
  | [] => .ok []
  | item :: rest =>
    match item with
    | .obj fs =>
      match lookupKey textK fs with
      | some (.str s) =>
        match collectTexts rest with
        | .ok ts => .ok (s :: ts)
        | .error e => .error e
      | some _ => .error .typeError
      | none => collectTexts rest
    | .str s =>
      match collectTexts rest with
      | .ok ts => .ok (s :: ts)
      | .error e => .error e
    | _ => collectTexts rest

/-- The `try` body of `extract_description` (lines 184-209). -/
def descBody (resp : Json) : Except PyExc (List Char) :=
  match pyGetAttr resp outputK (.obj []) with
  | .error e => .error e
  | .ok output =>
    match pyGetAttr output choicesK (.arr []) with
    | .error e => .error e
    | .ok choices =>
      if choices.falsy then .error .noChoices
      else
        match pySubZero choices with
        | .error e => .error e
        | .ok c0 =>
          match pyGetAttr c0 messageK (.obj []) with
          | .error e => .error e
          | .ok message =>
            match pyGetAttr message contentK (.str []) with
            | .error e => .error e
            | .ok content =>
              if content.falsy then .error .noContent
              else
                match content with
                | .arr items =>
                  match collectTexts items with
                  | .error e => .error e
                  | .ok texts => .ok (stripChars (joinSpace texts))
                | .str s => .ok (stripChars s)
                | _ => .error .attrError

/-- The error as classified by the two `except` handlers of
`extract_description` (lines 211-216): `extractionFailed` is the
`(KeyError, IndexError)` handler, `unexpected` the generic one. -/
inductive DescribeErr where
  | extractionFailed : PyExc → DescribeErr
  | unexpected : PyExc → DescribeErr
deriving DecidableEq

/-- Whether the handler that produced the error printed the raw API
response first: the generic handler does (line 215), the
`(KeyError, IndexError)` handler does not (lines 211-212). -/
def rawEmitted : DescribeErr → Bool
  | .extractionFailed _ => false
  | .unexpected _ => true

/-- `extract_description` (lines 174-216): the `try` body dispatched
through the two exception handlers. -/
def extract_description (resp : Json) : Except DescribeErr (List Char) :=
  match descBody resp with
  | .ok s => .ok s
  | .error .keyError => .error (.extractionFailed .keyError)
  | .error .indexError => .error (.extractionFailed .indexError)
  | .error e => .error (.unexpected e)

/-- The recognized fragments' texts, in order (spec side of C6/C10):
bare strings and objects whose `text` member is a string; everything
else is skipped. -/
def fragTexts : List Json → List (List Char)
  | [] => []
  | .str s :: rest => s :: fragTexts rest
  | .obj fs :: rest =>
    match lookupKey textK fs with
    | some (.str s) => s :: fragTexts rest
    | _ => fragTexts rest
  | _ :: rest => fragTexts rest

/-- A fragment of the claimed multimodal content-list shape: a bare
string, or an object with a string `text` member. -/
def FragOk (j : Json) : Prop :=
  (∃ s, j = .str s) ∨ (∃ fs s, j = .obj fs ∧ lookupKey textK fs = some (.str s))

/-- A minimal multimodal response carrying the given
`output.choices[0].message.content`, with `rest` any further choices. -/
def mmResp (content : Json) (rest : List Json) : Json :=
  .obj [(outputK, .obj [(choicesK, .arr (.obj [(messageK, .obj [(contentK, content)])] :: rest))])]

/-- Workflow-level failures of `process_image`. -/
inductive WorkflowErr where
  | imageProcessing : WorkflowErr
  | descFailed : DescribeErr → WorkflowErr
deriving DecidableEq

/-- `preprocess_image` (lines 41-69).  The PIL open/convert/resize/re-encode
pipeline is an external library, embedded as the oracle `pipeline`
(`none` = the library raised); any such failure is re-raised as the
"Error preprocessing image" exception, the spec's `ImageProcessingError`. -/
def preprocess_image (pipeline : List Char → Option (List Char)) (image_path : List Char) :
    Except WorkflowErr (List Char) :=
  match pipeline image_path with
  | some b64 => .ok b64
  | none => .error .imageProcessing

/-- `get_location_context` (lines 71-89). -/
def get_location_context (location : LocationData) : List Char :=
  let intChars := fun (n : Int) =>
    if n < 0 then '-' :: natToChars n.natAbs else natToChars n.natAbs
  let base := ("Location coordinates: ").toList ++ intChars location.latitude ++
    (", ").toList ++ intChars location.longitude
  let withAddr :=
    match location.address with
    | some a => base ++ ('\n' :: ("Address: ").toList) ++ a
    | none => base
  match location.landmark with
  | some l => withAddr ++ ('\n' :: ("Nearby landmark: ").toList) ++ l
  | none => withAddr

/-- `create_prompt` (lines 91-122): the fixed tour-guide template around
the location context, stripped. -/
def create_prompt (location : LocationData) : List Char :=
  stripChars (("You are VISTA, an enthusiastic and knowledgeable tour guide. ").toList ++
    get_location_context location ++
    (" Identify and describe the building or landmark near the location.").toList)

/-- The observable stages of one `process_image` run, in order. -/
inductive WorkflowStage where
  | preprocessed : WorkflowStage
  | promptCreated : WorkflowStage
  | apiCalled : WorkflowStage
  | descriptionExtracted : WorkflowStage
deriving DecidableEq

/-- `process_image` (lines 218-250): preprocess, build the prompt, issue
the single multimodal request (`svc`), extract.  The second component
records the stages reached, in order. -/
def process_image (pipeline : List Char → Option (List Char)) (svc : List Char → List Char → Json)
    (image_path : List Char) (location : LocationData) :
    Except WorkflowErr (List Char) × List WorkflowStage :=
  match preprocess_image pipeline image_path with
  | .error e => (.error e, [])
  | .ok image_base64 =>
    let prompt := create_prompt location
    let resp := svc image_base64 prompt
    match extract_description resp with
    | .error e => (.error (.descFailed e), [.preprocessed, .promptCreated, .apiCalled])
    | .ok d => (.ok d, [.preprocessed, .promptCreated, .apiCalled, .descriptionExtracted])

/-! ### Concrete test inputs -/

/-- The five required destination fields, in the evaluation order of
lines 167-173. -/
def requiredKeys : List (List Char) := [nameK, descriptionK, durationK, bestTimeK, highlightsK]

/-- A destination-list JSON document used as concrete test input. -/
def goodListS : List Char := ("[\x7b\"name\": \"Great Hall\", \"description\": \"Iconic.\", \"recommended_duration\": \"30 minutes\", \"best_time_to_visit\": \"anytime\", \"highlights\": [\"Facade\", \"Tower\"]\x7d]").toList

/-- The parsed form of `goodListS`. -/
def goodListJson : Json := .arr [.obj [(nameK, .str (("Great Hall").toList)),
  (descriptionK, .str (("Iconic.").toList)), (durationK, .str (("30 minutes").toList)),
  (bestTimeK, .str (("anytime").toList)),
  (highlightsK, .arr [.str (("Facade").toList), .str (("Tower").toList)])]]

/-- The `TravelDestination` encoded by `goodListS`. -/
def goodDest : TravelDestination := ⟨.str (("Great Hall").toList), .str (("Iconic.").toList),
  .str (("30 minutes").toList), .str (("anytime").toList),
  .arr [.str (("Facade").toList), .str (("Tower").toList)]⟩

/-- Prose with `goodListS` embedded, as the generation service might
return it. -/
def proseS : List Char := ("Here are my picks: ").toList ++ goodListS ++ (" enjoy the tour.").toList

/-! ### Helper lemmas -/

theorem json_parse_nil : Json.parse [] = none := rfl

theorem json_parse_ne_nil {s : List Char} {v : Json} (h : Json.parse s = some v) : s ≠ [] := by
  intro he
  rw [he, json_parse_nil] at h
  exact Option.noConfusion h

theorem bracketSpan_nil : bracketSpan [] = none := rfl

theorem dropWhile_append_of_all (p : Char → Bool) (pre rest : List Char)
    (h : ∀ c ∈ pre, p c = true) :
    List.dropWhile p (pre ++ rest) = List.dropWhile p rest := by
  induction pre with
  | nil => rfl
  | cons d ds ih =>
    have hd : p d = true := h d (List.mem_cons_self d ds)
    simp only [List.cons_append, List.dropWhile_cons, hd, if_true]
    exact ih (fun e he => h e (List.mem_cons_of_mem d he))

theorem bracketSpan_embed (pre mid post : List Char)
    (hpre : ∀ c ∈ pre, c ≠ '[') (hpost : ∀ c ∈ post, c ≠ ']') :
    bracketSpan (pre ++ ('[' :: mid ++ [']']) ++ post) = some ('[' :: mid ++ [']']) := by
  have h1 : List.dropWhile (fun c => !(c = '[')) (pre ++ ('[' :: mid ++ [']']) ++ post)
      = '[' :: (mid ++ [']'] ++ post) := by
    rw [List.append_assoc]
    rw [dropWhile_append_of_all _ pre _ (fun c hc => by simp [hpre c hc])]
    simp [List.dropWhile_cons]
  have h2 : ('[' :: (mid ++ [']'] ++ post)).reverse
      = post.reverse ++ (']' :: (mid.reverse ++ ['['])) := by
    simp
  have h3 : List.dropWhile (fun c => !(c = ']')) (post.reverse ++ (']' :: (mid.reverse ++ ['['])))
      = ']' :: (mid.reverse ++ ['[']) := by
    rw [dropWhile_append_of_all _ post.reverse _
      (fun c hc => by simp [hpost c (List.mem_reverse.mp hc)])]
    simp [List.dropWhile_cons]
  have hu : ((List.dropWhile (fun c => !(c = '['))
        (pre ++ ('[' :: mid ++ [']']) ++ post)).reverse.dropWhile
        (fun c => !(c = ']'))).reverse = '[' :: mid ++ [']'] := by
    rw [h1, h2, h3]
    simp
  unfold bracketSpan
  rw [hu]
  rfl

theorem replAux_eq_self (pat rep : List Char) :
    ∀ (fuel : Nat) (s : List Char), ¬ pat <:+: s → replAux fuel s pat rep = s := by
  intro fuel
  induction fuel with
  | zero => intro s _; rfl
  | succ n ih =>
    intro s hinf
    cases s with
    | nil => rfl
    | cons c cs =>
      have hnp : ¬ pat.isPrefixOf (c :: cs) := by
        intro hp
        exact hinf (List.IsPrefix.isInfix (List.isPrefixOf_iff_prefix.mp hp))
      rw [replAux, if_neg (by intro hand; exact hnp hand.2)]
      rw [ih cs (fun hi => hinf (List.infix_cons hi))]

theorem replaceAll_eq_self (s pat rep : List Char) (hinf : ¬ pat <:+: s) :
    replaceAll s pat rep = s :=
  replAux_eq_self pat rep s.length s hinf

theorem falsy_str_false {s : List Char} (h : s ≠ []) : (Json.str s).falsy = false := by
  cases s with
  | nil => exact absurd rfl h
  | cons c cs => rfl

theorem extract_reduce (resp : Json) (s : List Char)
    (hc : contentOf resp = .ok (some (.str s))) (hne : s ≠ []) :
    extract_destinations resp =
      (match Json.parse s with
       | some v => destsOfJson v
       | none =>
         match bracketSpan s with
         | some sub =>
           match Json.parse sub with
           | some v => destsOfJson v
           | none => .error .noJson
         | none => .error .noJson) := by
  unfold extract_destinations
  rw [hc]
  simp only [falsy_str_false hne, Bool.false_eq_true, if_false]

theorem destOfJson_obj_ok (fs : List (List Char × Json))
    (h : ∀ k ∈ requiredKeys, (lookupKey k fs).isSome = true) :
    ∃ d, destOfJson (.obj fs) = .ok d := by
  have h1 := h nameK (by simp [requiredKeys])
  have h2 := h descriptionK (by simp [requiredKeys])
  have h3 := h durationK (by simp [requiredKeys])
  have h4 := h bestTimeK (by simp [requiredKeys])
  have h5 := h highlightsK (by simp [requiredKeys])
  rcases Option.isSome_iff_exists.mp h1 with ⟨v1, e1⟩
  rcases Option.isSome_iff_exists.mp h2 with ⟨v2, e2⟩
  rcases Option.isSome_iff_exists.mp h3 with ⟨v3, e3⟩
  rcases Option.isSome_iff_exists.mp h4 with ⟨v4, e4⟩
  rcases Option.isSome_iff_exists.mp h5 with ⟨v5, e5⟩
  exact ⟨⟨v1, v2, v3, v4, v5⟩, by simp [destOfJson, e1, e2, e3, e4, e5]⟩

theorem destOfJson_missing_sound (j : Json) (k : List Char)
    (h : destOfJson j = .error (.missingKey k)) :
    k ∈ requiredKeys ∧ ∃ fs, j = Json.obj fs ∧ lookupKey k fs = none := by
  cases j with
  | obj fs =>
    refine ⟨?_, fs, rfl, ?_⟩ <;>
    · rcases e1 : lookupKey nameK fs with _ | v1 <;> simp [destOfJson, e1] at h
      case none => simp [← h, requiredKeys, e1]
      all_goals rcases e2 : lookupKey descriptionK fs with _ | v2 <;> simp [e2] at h
      case none => simp [← h, requiredKeys, e2]
      all_goals rcases e3 : lookupKey durationK fs with _ | v3 <;> simp [e3] at h
      case none => simp [← h, requiredKeys, e3]
      all_goals rcases e4 : lookupKey bestTimeK fs with _ | v4 <;> simp [e4] at h
      case none => simp [← h, requiredKeys, e4]
      all_goals rcases e5 : lookupKey highlightsK fs with _ | v5 <;> simp [e5] at h
      case none => simp [← h, requiredKeys, e5]
  | null => simp [destOfJson] at h
  | bool b => simp [destOfJson] at h
  | num n => simp [destOfJson] at h
  | str s => simp [destOfJson] at h
  | arr l => simp [destOfJson] at h

theorem destOfJson_obj_err_of_missing (fs : List (List Char × Json))
    (h : ∃ k ∈ requiredKeys, lookupKey k fs = none) :
    ∃ k, destOfJson (.obj fs) = .error (.missingKey k) := by
  rcases e1 : lookupKey nameK fs with _ | v1
  · exact ⟨nameK, by simp [destOfJson, e1]⟩
  rcases e2 : lookupKey descriptionK fs with _ | v2
  · exact ⟨descriptionK, by simp [destOfJson, e1, e2]⟩
  rcases e3 : lookupKey durationK fs with _ | v3
  · exact ⟨durationK, by simp [destOfJson, e1, e2, e3]⟩
  rcases e4 : lookupKey bestTimeK fs with _ | v4
  · exact ⟨bestTimeK, by simp [destOfJson, e1, e2, e3, e4]⟩
  rcases e5 : lookupKey highlightsK fs with _ | v5
  · exact ⟨highlightsK, by simp [destOfJson, e1, e2, e3, e4, e5]⟩
  exfalso
  rcases h with ⟨k, hk, hnone⟩
  simp [requiredKeys] at hk
  obtain rfl | rfl | rfl | rfl | rfl := hk <;> simp_all

theorem destsOfList_ok (xs : List Json)
    (h : ∀ j ∈ xs, ∃ fs, j = Json.obj fs ∧ ∀ k ∈ requiredKeys, (lookupKey k fs).isSome = true) :
    ∃ ds, destsOfList xs = .ok ds ∧ ds.length = xs.length := by
  induction xs
  case nil => exact ⟨[], ⟨rfl, rfl⟩⟩
  case cons j rest ih =>
    rcases h j (by simp) with ⟨fs, rfl, hks⟩
    rcases destOfJson_obj_ok fs hks with ⟨d, hd⟩
    rcases ih (fun x hx => h x (List.mem_cons_of_mem _ hx)) with ⟨ds, hds, hlen⟩
    exact ⟨d :: ds, by simp [destsOfList, hd, hds], by simp [hlen]⟩

theorem destsOfList_missing_sound (xs : List Json) (k : List Char)
    (h : destsOfList xs = .error (.missingKey k)) :
    k ∈ requiredKeys ∧ ∃ fs, Json.obj fs ∈ xs ∧ lookupKey k fs = none := by
  induction xs with
  | nil => simp [destsOfList] at h
  | cons j rest ih =>
    rcases hj : destOfJson j with e | d
    · rw [destsOfList, hj] at h
      injection h with h2
      subst h2
      rcases destOfJson_missing_sound j k hj with ⟨hk, fs, rfl, hnone⟩
      exact ⟨hk, fs, by simp, hnone⟩
    · rw [destsOfList, hj] at h
      rcases hrest : destsOfList rest with e2 | ds2
      · rw [hrest] at h
        injection h with h2
        subst h2
        rcases ih hrest with ⟨hk, fs, hmem, hnone⟩
        exact ⟨hk, fs, by simp [hmem], hnone⟩
      · rw [hrest] at h
        exact absurd h (by simp)

theorem destsOfList_err_of_missing (xs : List Json)
    (hobj : ∀ j ∈ xs, ∃ fs, j = Json.obj fs)
    (hmiss : ∃ j ∈ xs, ∃ fs, j = Json.obj fs ∧ ∃ k ∈ requiredKeys, lookupKey k fs = none) :
    ∃ k, destsOfList xs = .error (.missingKey k) := by
  induction xs with
  | nil =>
    rcases hmiss with ⟨j, hj, _⟩
    exact absurd hj (List.not_mem_nil j)
  | cons j rest ih =>
    rcases hobj j (by simp) with ⟨fs, rfl⟩
    rcases hj : destOfJson (Json.obj fs) with e | d
    · have : ∃ k, ExtractErr.missingKey k = e := by
        rcases e1 : lookupKey nameK fs with _ | v1
        · simp [destOfJson, e1] at hj; exact ⟨nameK, hj⟩
        rcases e2 : lookupKey descriptionK fs with _ | v2
        · simp [destOfJson, e1, e2] at hj; exact ⟨descriptionK, hj⟩
        rcases e3 : lookupKey durationK fs with _ | v3
        · simp [destOfJson, e1, e2, e3] at hj; exact ⟨durationK, hj⟩
        rcases e4 : lookupKey bestTimeK fs with _ | v4
        · simp [destOfJson, e1, e2, e3, e4] at hj; exact ⟨bestTimeK, hj⟩
        rcases e5 : lookupKey highlightsK fs with _ | v5
        · simp [destOfJson, e1, e2, e3, e4, e5] at hj; exact ⟨highlightsK, hj⟩
        simp [destOfJson, e1, e2, e3, e4, e5] at hj
      rcases this with ⟨k, hk⟩
      exact ⟨k, by simp [destsOfList, hj, ← hk]⟩
    · rcases hmiss with ⟨j2, hj2mem, fs2, hj2eq, k2, hk2, hnone2⟩
      rcases List.mem_cons.mp hj2mem with heq | hmem2
      · have hcomb : Json.obj fs = Json.obj fs2 := by rw [← heq, hj2eq]
        injection hcomb with hfs
        subst hfs
        rcases destOfJson_obj_err_of_missing fs ⟨k2, hk2, hnone2⟩ with ⟨k3, hk3⟩
        rw [hj] at hk3
        exact absurd hk3 (by simp)
      · rcases ih (fun x hx => hobj x (by simp [hx])) ⟨j2, hmem2, fs2, hj2eq, k2, hk2, hnone2⟩
          with ⟨k3, hk3⟩
        exact ⟨k3, by simp [destsOfList, hj, hk3]⟩

theorem collectTexts_eq_fragTexts (items : List Json)
    (h : ∀ fs v, Json.obj fs ∈ items → lookupKey textK fs = some v → ∃ s, v = .str s) :
    collectTexts items = .ok (fragTexts items) := by
  induction items with
  | nil => rfl
  | cons item rest ih =>
    have hrest := ih (fun fs v hm hl => h fs v (by simp [hm]) hl)
    cases item with
    | obj fs =>
      rcases hlk : lookupKey textK fs with _ | v
      · simp [collectTexts, fragTexts, hlk, hrest]
      · rcases h fs v (by simp) hlk with ⟨s, rfl⟩
        simp [collectTexts, fragTexts, hlk, hrest]
    | str s => simp [collectTexts, fragTexts, hrest]
    | null => simp [collectTexts, fragTexts, hrest]
    | bool b => simp [collectTexts, fragTexts, hrest]
    | num n => simp [collectTexts, fragTexts, hrest]
    | arr l => simp [collectTexts, fragTexts, hrest]

theorem falsy_arr_false {items : List Json} (h : items ≠ []) : (Json.arr items).falsy = false := by
  cases items with
  | nil => exact absurd rfl h
  | cons a l => rfl

theorem descBody_list_content (resp output choices c0 message : Json) (items : List Json)
    (h1 : pyGetAttr resp outputK (.obj []) = .ok output)
    (h2 : pyGetAttr output choicesK (.arr []) = .ok choices)
    (h3 : choices.falsy = false)
    (h4 : pySubZero choices = .ok c0)
    (h5 : pyGetAttr c0 messageK (.obj []) = .ok message)
    (h6 : pyGetAttr message contentK (.str []) = .ok (.arr items))
    (h7 : items ≠ [])
    (h8 : ∀ fs v, Json.obj fs ∈ items → lookupKey textK fs = some v → ∃ s, v = .str s) :
    extract_description resp = .ok (stripChars (joinSpace (fragTexts items))) := by
  have hct := collectTexts_eq_fragTexts items h8
  simp [extract_description, descBody, h1, h2, h3, h4, h5, h6, falsy_arr_false h7, hct]

theorem descBody_str_content (resp output choices c0 message : Json) (s : List Char)
    (h1 : pyGetAttr resp outputK (.obj []) = .ok output)
    (h2 : pyGetAttr output choicesK (.arr []) = .ok choices)
    (h3 : choices.falsy = false)
    (h4 : pySubZero choices = .ok c0)
    (h5 : pyGetAttr c0 messageK (.obj []) = .ok message)
    (h6 : pyGetAttr message contentK (.str []) = .ok (.str s))
    (h7 : s ≠ []) :
    extract_description resp = .ok (stripChars s) := by
  simp [extract_description, descBody, h1, h2, h3, h4, h5, h6, falsy_str_false h7]

theorem descBody_noChoices (resp output choices : Json)
    (h1 : pyGetAttr resp outputK (.obj []) = .ok output)
    (h2 : pyGetAttr output choicesK (.arr []) = .ok choices)
    (h3 : choices.falsy = true) :
    extract_description resp = .error (.unexpected .noChoices) := by
  simp [extract_description, descBody, h1, h2, h3]

theorem descBody_noContent (resp output choices c0 message content : Json)
    (h1 : pyGetAttr resp outputK (.obj []) = .ok output)
    (h2 : pyGetAttr output choicesK (.arr []) = .ok choices)
    (h3 : choices.falsy = false)
    (h4 : pySubZero choices = .ok c0)
    (h5 : pyGetAttr c0 messageK (.obj []) = .ok message)
    (h6 : pyGetAttr message contentK (.str []) = .ok content)
    (h7 : content.falsy = true) :
    extract_description resp = .error (.unexpected .noContent) := by
  simp [extract_description, descBody, h1, h2, h3, h4, h5, h6, h7]

theorem contentOf_dep_output (resp out : Json) (h : resp.lookup outputK = some out) :
    contentOf resp = contentOf (.obj [(outputK, out)]) := by
  unfold contentOf
  rw [h]
  rfl

theorem contentOf_dep_response (resp r : Json) (h1 : resp.lookup outputK = none)
    (h2 : resp.lookup responseK = some r) :
    contentOf resp = contentOf (.obj [(responseK, r)]) := by
  unfold contentOf
  rw [h1, h2]
  rfl

theorem contentOf_dep_choices (resp chs : Json) (h1 : resp.lookup outputK = none)
    (h2 : resp.lookup responseK = none) (h3 : resp.lookup choicesK = some chs) :
    contentOf resp = contentOf (.obj [(choicesK, chs)]) := by
  unfold contentOf
  rw [h1, h2, h3]
  rfl

/-! ### The claims -/

/-- Claim C1, counterexample.  The claim says the parser uses the first
NON-EMPTY match among `output.text`, `response`, `choices[0].text`, so a
valid destination list under the `response` wrapper would be extracted
even when an empty `output` wrapper is also present.  The code instead
selects the wrapper by key presence alone: with `output` present but
empty, extraction fails with the no-content error even though the very
same `response` wrapper alone extracts successfully. -/
theorem c1_counterexample :
    extract_destinations (.obj [(outputK, .obj []), (responseK, .str goodListS)])
      = .error .noContent
    ∧ extract_destinations (.obj [(responseK, .str goodListS)]) = .ok [goodDest] :=
  ⟨rfl, rfl⟩

/-- Claim C1, amended: the wrapper is selected by KEY PRESENCE in the
fixed priority order `output`, `response`, `choices`; the result then
depends only on the selected wrapper's value (later wrappers are ignored
even when the selected one is empty), extraction fails when no wrapper
key is present, and a valid destination-list JSON under exactly one of
the three wrappers is extracted. -/
theorem c1_wrapper_priority :
    (∀ resp out, resp.lookup outputK = some out →
      extract_destinations resp = extract_destinations (.obj [(outputK, out)]))
    ∧ (∀ resp r, resp.lookup outputK = none → resp.lookup responseK = some r →
      extract_destinations resp = extract_destinations (.obj [(responseK, r)]))
    ∧ (∀ resp chs, resp.lookup outputK = none → resp.lookup responseK = none →
      resp.lookup choicesK = some chs →
      extract_destinations resp = extract_destinations (.obj [(choicesK, chs)]))
    ∧ (∀ resp, resp.lookup outputK = none → resp.lookup responseK = none →
      resp.lookup choicesK = none → extract_destinations resp = .error .noContent)
    ∧ (∀ s v ds, Json.parse s = some v → destsOfJson v = .ok ds →
      extract_destinations (.obj [(outputK, .obj [(textK, .str s)])]) = .ok ds
      ∧ extract_destinations (.obj [(responseK, .str s)]) = .ok ds
      ∧ extract_destinations (.obj [(choicesK, .arr [.obj [(textK, .str s)]])]) = .ok ds) := by
  refine ⟨?pOut, ?pResp, ?pChs, ?pNone, ?pGood⟩
  · intro resp out h
    unfold extract_destinations
    rw [contentOf_dep_output resp out h]
  · intro resp r h1 h2
    unfold extract_destinations
    rw [contentOf_dep_response resp r h1 h2]
  · intro resp chs h1 h2 h3
    unfold extract_destinations
    rw [contentOf_dep_choices resp chs h1 h2 h3]
  · intro resp h1 h2 h3
    unfold extract_destinations contentOf
    rw [h1, h2, h3]
  · intro s v ds hp hd
    have hne : s ≠ [] := json_parse_ne_nil hp
    have hout : contentOf (.obj [(outputK, .obj [(textK, .str s)])]) = .ok (some (.str s)) := by
      simp [contentOf, Json.lookup, lookupKey]
    have hresp : contentOf (.obj [(responseK, .str s)]) = .ok (some (.str s)) := by
      simp [contentOf, Json.lookup, lookupKey, outputK, responseK]
    have hchs : contentOf (.obj [(choicesK, .arr [.obj [(textK, .str s)]])])
        = .ok (some (.str s)) := by
      simp [contentOf, Json.lookup, lookupKey, outputK, responseK, choicesK, Json.falsy]
    refine ⟨?_, ?_, ?_⟩ <;>
    · rw [extract_reduce _ s (by assumption) hne, hp]
      exact hd

/-- Claim C1 witness: the amended behaviour at the concrete destination
list `goodListS` under each of the three wrappers. -/
theorem c1_wrapper_priority_witness :
    extract_destinations (.obj [(outputK, .obj [(textK, .str goodListS)])]) = .ok [goodDest]
    ∧ extract_destinations (.obj [(responseK, .str goodListS)]) = .ok [goodDest]
    ∧ extract_destinations (.obj [(choicesK, .arr [.obj [(textK, .str goodListS)]])])
      = .ok [goodDest] :=
  c1_wrapper_priority.2.2.2.2 goodListS goodListJson [goodDest] rfl rfl

/-- Claim C2: content handed to destination extraction is first parsed as
direct JSON; on failure the regex `\[.*\]` (leftmost-longest: first `[`
through last `]`) extracts the bracketed substring, which is parsed
instead; prose around one embedded `[...]` array is stripped so that
exactly that array is located; when both attempts fail the extraction
fails with the malformed-response error. -/
theorem c2_content_parsing (resp : Json) (s : List Char)
    (hc : contentOf resp = .ok (some (.str s))) :
    (∀ v, Json.parse s = some v → extract_destinations resp = destsOfJson v)
    ∧ (∀ sub v, Json.parse s = none → bracketSpan s = some sub → Json.parse sub = some v →
      extract_destinations resp = destsOfJson v)
    ∧ (∀ pre mid post, (∀ c ∈ pre, c ≠ '[') → (∀ c ∈ post, c ≠ ']') →
      bracketSpan (pre ++ ('[' :: mid ++ [']']) ++ post) = some ('[' :: mid ++ [']']))
    ∧ (s ≠ [] → Json.parse s = none → bracketSpan s = none →
      extract_destinations resp = .error .noJson)
    ∧ (∀ sub, s ≠ [] → Json.parse s = none → bracketSpan s = some sub → Json.parse sub = none →
      extract_destinations resp = .error .noJson) := by
  refine ⟨?_, ?_, bracketSpan_embed, ?_, ?_⟩
  · intro v hp
    rw [extract_reduce resp s hc (json_parse_ne_nil hp), hp]
  · intro sub v hp hb hps
    have hne : s ≠ [] := by
      intro he
      rw [he, bracketSpan_nil] at hb
      exact Option.noConfusion hb
    rw [extract_reduce resp s hc hne, hp, hb]
    simp [hps]
  · intro hne hp hb
    rw [extract_reduce resp s hc hne, hp, hb]
  · intro sub hne hp hb hps
    rw [extract_reduce resp s hc hne, hp, hb]
    simp [hps]

/-- Claim C2 witness: prose around the concrete destination list is
stripped by the bracket regex and the embedded array parses to the
expected destinations. -/
theorem c2_content_parsing_witness :
    extract_destinations (.obj [(responseK, .str proseS)]) = destsOfJson goodListJson
    ∧ destsOfJson goodListJson = .ok [goodDest]
    ∧ Json.parse proseS = none
    ∧ bracketSpan proseS = some goodListS :=
  ⟨(c2_content_parsing (.obj [(responseK, .str proseS)]) proseS rfl).2.1
      goodListS goodListJson rfl rfl rfl,
    rfl, rfl, rfl⟩

/-- Claim C3: the parsed summary's totals are the sums of the legs'
`distance.value` / `duration.value`; the distance renders as kilometres
with two decimals at 1000 m and above and as integer metres below; the
duration renders as minutes and seconds by integer division and modulo;
legs summing to 1500 m / 125 s give "1.50 km" and "2 min 5 sec", and a
500 m total gives "500 m". -/
theorem c3_route_totals (l0 : RouteLeg) (rest : List RouteLeg) :
    (∃ ri, parse_route_info ⟨l0 :: rest⟩ = .ok ri
      ∧ ri.distance =
          (if 1000 ≤ ((l0 :: rest).map (fun l => l.distance_value)).sum then
            fmtKm ((l0 :: rest).map (fun l => l.distance_value)).sum ++ (" km").toList
          else natToChars ((l0 :: rest).map (fun l => l.distance_value)).sum ++ (" m").toList)
      ∧ ri.duration =
          natToChars (((l0 :: rest).map (fun l => l.duration_value)).sum / 60) ++ (" min ").toList
          ++ natToChars (((l0 :: rest).map (fun l => l.duration_value)).sum % 60) ++ (" sec").toList)
    ∧ (∃ ri2, parse_route_info ⟨[⟨1000, 100, ("a").toList, ("b").toList, []⟩,
        ⟨500, 25, ("b").toList, ("c").toList, []⟩]⟩ = .ok ri2
      ∧ ri2.distance = ("1.50 km").toList ∧ ri2.duration = ("2 min 5 sec").toList)
    ∧ (∃ ri3, parse_route_info ⟨[⟨500, 25, ("a").toList, ("b").toList, []⟩]⟩ = .ok ri3
      ∧ ri3.distance = ("500 m").toList) := by
  refine ⟨⟨_, rfl, ?_, ?_⟩, ⟨_, rfl, rfl, rfl⟩, ⟨_, rfl, rfl⟩⟩
  · rfl
  · rfl

/-- Claim C4: with fewer than two locations the route calculation fails
with the insufficient-locations error and issues no directions request;
with two or more, exactly one request is issued, whose origin is the
first entry, destination the last, and waypoints the interior entries. -/
theorem c4_min_locations :
    (∀ svc opt, calculate_route svc [] opt = (.error .insufficientLocations, []))
    ∧ (∀ svc opt x, calculate_route svc [x] opt = (.error .insufficientLocations, []))
    ∧ (∀ svc x, plan_route svc [x] = (.error .insufficientLocations, []))
    ∧ (∀ svc, plan_route svc [] = (.error .insufficientLocations, []))
    ∧ (∀ svc opt l0 l1 rest,
        (calculate_route svc (l0 :: l1 :: rest) opt).2 =
          [⟨l0, (l0 :: l1 :: rest).getLast (by simp),
            ((l0 :: l1 :: rest).drop 1).dropLast, opt, ("walking").toList, ("metric").toList⟩]) := by
  refine ⟨fun svc opt => rfl, fun svc opt x => rfl, fun svc x => rfl, fun svc => rfl, ?_⟩
  intro svc opt l0 l1 rest
  cases rest with
  | nil => rfl
  | cons a as =>
    simp only [calculate_route]
    split
    · rfl
    · next h =>
        exfalso
        apply h
        simp only [List.length_cons]
        omega

/-- Claim C7: the summary's steps are, in leg order then step order, each
step's instruction with only the four fixed markup tokens rewritten
(`<b>` and `</b>` removed, the inline-style div replaced by " - ", the
closing div removed); an instruction containing none of the four tokens
passes through unchanged; and the concrete bold/div instruction renders
as "Turn left - onto Main St". -/
theorem c7_step_markup (l0 : RouteLeg) (rest : List RouteLeg) :
    (∃ ri, parse_route_info ⟨l0 :: rest⟩ = .ok ri
      ∧ ri.steps = (l0 :: rest).flatMap
          (fun leg => leg.steps.map (fun st => cleanInstruction st.html_instructions)))
    ∧ cleanInstruction (("<b>Turn left</b><div style=\"font-size:0.9em\">onto Main St</div>").toList)
      = ("Turn left - onto Main St").toList
    ∧ (∀ s : List Char,
        ¬ ("<b>").toList <:+: s → ¬ ("</b>").toList <:+: s →
        ¬ ("<div style=\"font-size:0.9em\">").toList <:+: s → ¬ ("</div>").toList <:+: s →
        cleanInstruction s = s) := by
  refine ⟨⟨_, rfl, rfl⟩, rfl, ?_⟩
  intro s h1 h2 h3 h4
  have e1 := replaceAll_eq_self s (("<b>").toList) [] h1
  have e2 := replaceAll_eq_self s (("</b>").toList) [] h2
  have e3 := replaceAll_eq_self s (("<div style=\"font-size:0.9em\">").toList) ((" - ").toList) h3
  have e4 := replaceAll_eq_self s (("</div>").toList) [] h4
  simp only [cleanInstruction, e1, e2, e3, e4]

/-- Claim C7 witness: an instruction with unrelated markup is returned
unchanged by the cleaning pass. -/
theorem c7_step_markup_witness :
    cleanInstruction (("Continue onto <em>Locust Walk</em>").toList)
      = ("Continue onto <em>Locust Walk</em>").toList := by
  have h := c7_step_markup ⟨0, 0, [], [], []⟩ []
  refine h.2.2 _ ?ha ?hb ?hc ?hd <;> decide

/-- Claim C5: a parsed destination array converts only when every element
carries all five required fields; an element missing a field makes the
whole conversion fail with the missing-key error naming a key genuinely
absent from some element, and nothing partial is ever returned (the
failure carries no destinations). -/
theorem c5_required_fields :
    (∀ xs : List Json,
      (∀ j ∈ xs, ∃ fs, j = Json.obj fs ∧ ∀ k ∈ requiredKeys, (lookupKey k fs).isSome = true) →
      ∃ ds, destsOfJson (.arr xs) = .ok ds ∧ ds.length = xs.length)
    ∧ (∀ (xs : List Json) (k : List Char), destsOfJson (.arr xs) = .error (.missingKey k) →
      k ∈ requiredKeys ∧ ∃ fs, Json.obj fs ∈ xs ∧ lookupKey k fs = none)
    ∧ (∀ xs : List Json, (∀ j ∈ xs, ∃ fs, j = Json.obj fs) →
      (∃ j ∈ xs, ∃ fs, j = Json.obj fs ∧ ∃ k ∈ requiredKeys, lookupKey k fs = none) →
      ∃ k, destsOfJson (.arr xs) = .error (.missingKey k)) :=
  ⟨fun xs h => destsOfList_ok xs h,
   fun xs k h => destsOfList_missing_sound xs k h,
   fun xs hobj hmiss => destsOfList_err_of_missing xs hobj hmiss⟩

/-- Claim C5 witness: a fully populated element converts, and an element
carrying only `name` fails with a missing-key error. -/
theorem c5_required_fields_witness :
    (∃ ds, destsOfJson (.arr [Json.obj [(nameK, .str (("A").toList)),
        (descriptionK, .str (("B").toList)), (durationK, .str (("C").toList)),
        (bestTimeK, .str (("D").toList)), (highlightsK, .arr [])]]) = .ok ds
      ∧ ds.length = 1)
    ∧ (∃ k, destsOfJson (.arr [Json.obj [(nameK, .str (("A").toList))]])
        = .error (.missingKey k)) := by
  constructor
  · exact c5_required_fields.1 _
      (by intro j hj
          rcases List.mem_singleton.mp hj with rfl
          exact ⟨_, rfl, by decide⟩)
  · exact c5_required_fields.2.2 _
      (by intro j hj
          rcases List.mem_singleton.mp hj with rfl
          exact ⟨_, rfl⟩)
      ⟨Json.obj [(nameK, .str (("A").toList))], by simp,
        [(nameK, .str (("A").toList))], rfl, descriptionK, by decide, rfl⟩

/-- Claim C6: the description is parsed from
`output.choices[0].message.content`; a plain-string content is returned
(whitespace-stripped), a content list of fragments — bare strings or
objects with a string `text` field — is joined in order with single-space
separation (then whitespace-stripped), and the concrete list
`[(text: A), B, (text: C)]` yields exactly "A B C". -/
theorem c6_multimodal_content :
    (∀ (resp output choices c0 message : Json) (items : List Json),
      pyGetAttr resp outputK (.obj []) = .ok output →
      pyGetAttr output choicesK (.arr []) = .ok choices →
      choices.falsy = false →
      pySubZero choices = .ok c0 →
      pyGetAttr c0 messageK (.obj []) = .ok message →
      pyGetAttr message contentK (.str []) = .ok (.arr items) →
      items ≠ [] →
      (∀ i ∈ items, FragOk i) →
      extract_description resp = .ok (stripChars (joinSpace (fragTexts items))))
    ∧ (∀ (resp output choices c0 message : Json) (s : List Char),
      pyGetAttr resp outputK (.obj []) = .ok output →
      pyGetAttr output choicesK (.arr []) = .ok choices →
      choices.falsy = false →
      pySubZero choices = .ok c0 →
      pyGetAttr c0 messageK (.obj []) = .ok message →
      pyGetAttr message contentK (.str []) = .ok (.str s) →
      s ≠ [] →
      extract_description resp = .ok (stripChars s))
    ∧ extract_description (mmResp (.arr [.obj [(textK, .str (("A").toList))],
        .str (("B").toList), .obj [(textK, .str (("C").toList))]]) [])
      = .ok (("A B C").toList) := by
  refine ⟨?_, ?_, rfl⟩
  · intro resp output choices c0 message items h1 h2 h3 h4 h5 h6 h7 h8
    refine descBody_list_content resp output choices c0 message items h1 h2 h3 h4 h5 h6 h7 ?_
    intro fs v hm hl
    rcases h8 (Json.obj fs) hm with ⟨s, hs⟩ | ⟨fs2, s, heq, hlk⟩
    · exact absurd hs (by intro h; exact Json.noConfusion h)
    · injection heq with hfs
      subst hfs
      rw [hl] at hlk
      injection hlk with hv
      exact ⟨s, hv⟩
  · intro resp output choices c0 message s h1 h2 h3 h4 h5 h6 h7
    exact descBody_str_content resp output choices c0 message s h1 h2 h3 h4 h5 h6 h7

/-- Claim C6 witness: the fragment-list behaviour at a concrete
single-fragment response. -/
theorem c6_multimodal_content_witness :
    extract_description (mmResp (.arr [.str (("hi").toList)]) []) = .ok (("hi").toList) := by
  have h := c6_multimodal_content.1 (mmResp (.arr [.str (("hi").toList)]) []) _ _ _ _
    [.str (("hi").toList)] rfl rfl rfl rfl rfl rfl (by simp)
    (by intro i hi
        rcases List.mem_singleton.mp hi with rfl
        exact Or.inl ⟨(("hi").toList), rfl⟩)
  exact h

/-- Claim C10: content-list fragments that are neither bare strings nor
objects with a `text` member are silently skipped — extraction succeeds
and returns the recognized fragments' texts, space-joined (and
whitespace-stripped); it never fails because of an unrecognized fragment
alone.  (An object whose `text` member is a non-string still fails: that
fragment is recognized, not skipped.) -/
theorem c10_skip_unrecognized :
    (∀ (resp output choices c0 message : Json) (items : List Json),
      pyGetAttr resp outputK (.obj []) = .ok output →
      pyGetAttr output choicesK (.arr []) = .ok choices →
      choices.falsy = false →
      pySubZero choices = .ok c0 →
      pyGetAttr c0 messageK (.obj []) = .ok message →
      pyGetAttr message contentK (.str []) = .ok (.arr items) →
      items ≠ [] →
      (∀ fs v, Json.obj fs ∈ items → lookupKey textK fs = some v → ∃ s, v = .str s) →
      extract_description resp = .ok (stripChars (joinSpace (fragTexts items))))
    ∧ extract_description (mmResp (.arr [.num 7, .str (("hello").toList), .bool true, .null,
        .obj [(nameK, .num 1)], .arr []]) []) = .ok (("hello").toList) := by
  exact ⟨descBody_list_content, rfl⟩

/-- Claim C10 witness: the general fragment-skipping behaviour applied at
a concrete mixed list (a number fragment is skipped, the string kept). -/
theorem c10_skip_unrecognized_witness :
    extract_description (mmResp (.arr [.num 3, .str (("ok").toList)]) []) = .ok (("ok").toList) := by
  have h := c10_skip_unrecognized.1 (mmResp (.arr [.num 3, .str (("ok").toList)]) []) _ _ _ _
    [.num 3, .str (("ok").toList)] rfl rfl rfl rfl rfl rfl (by simp)
    (by intro fs v hm hl
        rcases List.mem_cons.mp hm with h3 | h3
        · exact absurd h3 (by intro hx; exact Json.noConfusion hx)
        · rcases List.mem_singleton.mp h3 with h4
          exact absurd h4 (by intro hx; exact Json.noConfusion hx))
  exact h

/-- Claim C9, counterexample.  The claim says every structural deviation
other than the empty cases fails AFTER emitting the raw response.  But
when `choices` arrives as a non-empty mapping, `choices[0]` raises a key
lookup error, which the dedicated `(KeyError, IndexError)` handler
re-raises WITHOUT printing the raw response. -/
theorem c9_counterexample :
    extract_description (.obj [(outputK, .obj [(choicesK, .obj [(nameK, .num 0)])])])
      = .error (.extractionFailed .keyError)
    ∧ rawEmitted (.extractionFailed .keyError) = false :=
  ⟨rfl, rfl⟩

/-- Claim C9, amended: missing/empty `choices` and empty content fail
with the empty-response errors (raw response emitted); every other
failure emits the raw response except those raised as key/index lookup
errors, which propagate through the dedicated handler without emitting
the raw response. -/
theorem c9_error_taxonomy :
    (∀ resp output choices : Json,
      pyGetAttr resp outputK (.obj []) = .ok output →
      pyGetAttr output choicesK (.arr []) = .ok choices →
      choices.falsy = true →
      extract_description resp = .error (.unexpected .noChoices)
      ∧ rawEmitted (.unexpected .noChoices) = true)
    ∧ (∀ resp output choices c0 message content : Json,
      pyGetAttr resp outputK (.obj []) = .ok output →
      pyGetAttr output choicesK (.arr []) = .ok choices →
      choices.falsy = false →
      pySubZero choices = .ok c0 →
      pyGetAttr c0 messageK (.obj []) = .ok message →
      pyGetAttr message contentK (.str []) = .ok content →
      content.falsy = true →
      extract_description resp = .error (.unexpected .noContent)
      ∧ rawEmitted (.unexpected .noContent) = true)
    ∧ (∀ (resp : Json) (e : DescribeErr), extract_description resp = .error e →
      e ≠ .unexpected .noChoices → e ≠ .unexpected .noContent →
      (rawEmitted e = true ∨ e = .extractionFailed .keyError ∨ e = .extractionFailed .indexError)) := by
  refine ⟨?tEmptyChoices, ?tEmptyContent, ?tOtherErrors⟩
  · intro resp output choices h1 h2 h3
    exact ⟨descBody_noChoices resp output choices h1 h2 h3, rfl⟩
  · intro resp output choices c0 message content h1 h2 h3 h4 h5 h6 h7
    exact ⟨descBody_noContent resp output choices c0 message content h1 h2 h3 h4 h5 h6 h7, rfl⟩
  · intro resp e h he1 he2
    unfold extract_description at h
    cases hdb : descBody resp with
    | ok s => rw [hdb] at h; exact absurd h (by simp)
    | error e2 =>
      rw [hdb] at h
      cases e2 <;> (simp at h; subst h; simp [rawEmitted])

/-- Claim C9 witness: the empty-choices case at the concrete empty
response, through the amended taxonomy. -/
theorem c9_error_taxonomy_witness :
    extract_description (.obj []) = .error (.unexpected .noChoices)
    ∧ rawEmitted (.unexpected .noChoices) = true :=
  c9_error_taxonomy.1 (.obj []) (.obj []) (.arr []) rfl rfl rfl

/-- Claim C8: when the image pipeline cannot load or decode the file
(e.g., a missing path), `process_image` fails with the
image-processing error during preprocessing — before the prompt is built
and before the generation-service call is issued. -/
theorem c8_preprocess_failure (pipeline : List Char → Option (List Char))
    (svc : List Char → List Char → Json) (image_path : List Char) (location : LocationData)
    (h : pipeline image_path = none) :
    process_image pipeline svc image_path location = (.error .imageProcessing, [])
    ∧ WorkflowStage.promptCreated ∉ (process_image pipeline svc image_path location).2
    ∧ WorkflowStage.apiCalled ∉ (process_image pipeline svc image_path location).2 := by
  have h1 : process_image pipeline svc image_path location = (.error .imageProcessing, []) := by
    unfold process_image preprocess_image
    rw [h]
  exact ⟨h1, by rw [h1]; simp, by rw [h1]; simp⟩

/-- Claim C8 witness: the failing pipeline oracle at a concrete path. -/
theorem c8_preprocess_failure_witness :
    process_image (fun _ => none) (fun _ _ => .null) (("missing.jpg").toList)
        ⟨0, 0, none, none⟩ = (.error .imageProcessing, [])
    ∧ WorkflowStage.promptCreated ∉ (process_image (fun _ => none) (fun _ _ => .null)
        (("missing.jpg").toList) ⟨0, 0, none, none⟩).2
    ∧ WorkflowStage.apiCalled ∉ (process_image (fun _ => none) (fun _ _ => .null)
        (("missing.jpg").toList) ⟨0, 0, none, none⟩).2 :=
  c8_preprocess_failure (fun _ => none) (fun _ _ => .null) (("missing.jpg").toList)
    ⟨0, 0, none, none⟩ rfl
